import Mathlib

/-!
Verification development for the TabCap Safari extension background script.

The definitions below are a shallow embedding of the background script
(`background.js`).  JavaScript strings are modelled as Lean `String`s with
explicit ASCII models of the string operations the script uses
(`toLowerCase`, `startsWith`, `endsWith`, `replace(/^www\./, "")`).
The host URL parser (`new URL(url).hostname`) is modelled by
`hostnameOfUrl`, which extracts the host component of hierarchical
`scheme://host...` URLs and returns `none` when the input is not parseable
in that form (a throwing `new URL` is the `none` case).
Timestamps (`Date.now()`) are `Nat` milliseconds; calendar dates
(`toDateString()` values) are opaque strings supplied by the environment.
The browser's tab list is an explicit `List Tab` argument; the persistent
stores (settings, stats, corral, activity map) are explicit values threaded
through each operation.
-/

namespace TabCap

/-! ### ASCII models of the JavaScript string operations used by the script -/

/-- ASCII model of `String.prototype.toLowerCase` on a single character. -/
def charLower (c : Char) : Char :=
  if 'A' ≤ c ∧ c ≤ 'Z' then Char.ofNat (c.toNat + 32) else c

/-- Model of `s.toLowerCase()` (per-character, ASCII; hostnames and
allowlist entries are ASCII domain strings). -/
def jsToLower (s : String) : String := ⟨s.data.map charLower⟩

/-- Model of `s.endsWith(pat)`. -/
def jsEndsWith (s pat : String) : Bool := pat.data.isSuffixOf s.data

/-- Does the character list `s` begin with the character list `pat`? -/
def listBeginsWith : List Char → List Char → Bool
  | _, [] => true
  | [], _ :: _ => false
  | c :: cs, p :: ps => c = p && listBeginsWith cs ps

/-- Model of `s.startsWith(pat)`. -/
def jsBeginsWith (s pat : String) : Bool := listBeginsWith s.data pat.data

/-- Model of `s.replace(/^www\./, "")`: strip one leading `"www."`. -/
def stripWww (s : String) : String :=
  if jsBeginsWith s "www." then ⟨s.data.drop 4⟩ else s

/-! ### Model of the host URL parser (`new URL(url).hostname`) -/

/-- Scan for the first `"://"` separator, returning the scheme read so far
(reversed accumulator) and the remainder after the separator. -/
def splitSchemeAux : List Char → List Char → Option (List Char × List Char)
  | acc, ':' :: '/' :: '/' :: rest => some (acc.reverse, rest)
  | acc, c :: rest => splitSchemeAux (c :: acc) rest
  | _, [] => none

/-- Take the host component: characters up to a path / query / fragment /
port delimiter. -/
def hostChars : List Char → List Char
  | [] => []
  | c :: cs =>
    if c = '/' ∨ c = '?' ∨ c = '#' ∨ c = ':' then [] else c :: hostChars cs

/-- Model of `new URL(url).hostname` for hierarchical `scheme://host...`
URLs; `none` models both a throwing `new URL` and a URL with no host
component. -/
def hostnameOfUrl (url : String) : Option String :=
  match splitSchemeAux [] url.data with
  | none => none
  | some (scheme, rest) =>
    if scheme = [] then none
    else
      let host := hostChars rest
      if host = [] then none else some ⟨host⟩

/-! ### `isUrlAllowed` (background.js lines 379-393) -/

/-- One allowlist-entry test from `isUrlAllowed`:
`hostname === cleanDomain || hostname.endsWith("." + cleanDomain)` where
`cleanDomain = domain.toLowerCase().replace(/^www\./, "")` and `hostname`
is already normalized. -/
def matchesEntry (hostname : String) (domain : String) : Bool :=
  let cleanDomain := stripWww (jsToLower domain)
  hostname == cleanDomain || jsEndsWith hostname ("." ++ cleanDomain)

/-- `isUrlAllowed(url, allowlist)`: normalized hostname membership test.
A `null`/empty url and an absent/empty allowlist are the falsy guard. -/
def isUrlAllowed (url : String) (allowlist : List String) : Bool :=
  if url = "" || allowlist.isEmpty then false
  else
    match hostnameOfUrl url with
    | none => false
    | some h =>
      let hostname := stripWww (jsToLower h)
      allowlist.any (fun domain => matchesEntry hostname domain)

/-- `isRealUrl(url)` (lines 396-402). -/
def isRealUrl (url : String) : Bool :=
  if url = "" then false
  else if url = "about:blank" || url = "about:newtab" then false
  else if jsBeginsWith url "safari-resource:" then false
  else if jsBeginsWith url "favorites://" then false
  else jsBeginsWith url "http://" || jsBeginsWith url "https://"

/-- `isInternalUrl(url)` (lines 258-267); a missing url is internal. -/
def isInternalUrl (url : String) : Bool :=
  if url = "" then true
  else if url = "about:blank" || url = "about:newtab" then true
  else if jsBeginsWith url "about:" then true
  else if jsBeginsWith url "safari-resource:" then true
  else if jsBeginsWith url "safari-web-extension:" then true
  else if jsBeginsWith url "favorites://" then true
  else if jsBeginsWith url "chrome://" then true
  else false

/-! ### Data model -/

/-- The dedup strategy selector (`wrangleOption`). -/
inductive WrangleOption where
  | withDupes
  | exactURLMatch
  | hostnameAndTitleMatch
deriving DecidableEq, Repr

/-- The settings store (`DEFAULT_SETTINGS` shape, lines 8-25). -/
structure Settings where
  enabled : Bool
  maxTabs : Nat
  globalLimit : Bool
  allowlistEnabled : Bool
  allowlist : List String
  tabLimitLocked : Bool
  inactiveEnabled : Bool
  inactiveMinutes : Nat
  protectPinned : Bool
  protectAudible : Bool
  protectAllowlist : Bool
  minTabs : Nat
  corralMax : Nat
  corralExpireHours : Nat
  debounceDelay : Nat
  wrangleOption : WrangleOption
deriving DecidableEq, Repr

/-- The stats store (`DEFAULT_STATS` shape, lines 28-38); the date fields
are `null`-able `toDateString()` strings. -/
structure Stats where
  currentStreak : Nat
  bestStreak : Nat
  blockedToday : Nat
  blockedWeek : Nat
  blockedTotal : Nat
  inactiveClosed : Nat
  lastActiveDate : Option String
  lastBlockDate : Option String
  weekStartDate : Option String
deriving DecidableEq, Repr

/-- A host-reported tab.  `title`/`favIconUrl` use `""` for the JS
falsy/missing value. -/
structure Tab where
  id : Nat
  windowId : Nat
  url : String
  title : String := ""
  favIconUrl : String := ""
  active : Bool := false
  pinned : Bool := false
  audible : Bool := false
deriving DecidableEq, Repr

/-! ### Stats operations (lines 135-212) -/

/-- The streak-advance step of `updateStreak(stats)` (lines 171-182). -/
def advanceStreak (stats : Stats) (today yesterday : String) : Stats :=
  if stats.lastActiveDate = none then
    { stats with currentStreak := 1, lastActiveDate := some today }
  else if stats.lastActiveDate = some today then stats
  else if stats.lastActiveDate = some yesterday then
    { stats with currentStreak := stats.currentStreak + 1,
                 lastActiveDate := some today }
  else
    { stats with currentStreak := 1, lastActiveDate := some today }

/-- The best-streak bump of `updateStreak(stats)` (lines 184-186). -/
def bumpBest (s : Stats) : Stats :=
  if s.currentStreak > s.bestStreak then { s with bestStreak := s.currentStreak }
  else s

/-- `updateStreak(stats)` (lines 167-189); `today`/`yesterday` are the
environment's date strings. -/
def updateStreak (stats : Stats) (today yesterday : String) : Stats :=
  bumpBest (advanceStreak stats today yesterday)

/-- The daily-counter reset of `getStats` (lines 144-146). -/
def dailyReset (stored : Stats) (today : String) : Stats :=
  if stored.lastBlockDate ≠ some today then { stored with blockedToday := 0 }
  else stored

/-- The weekly-counter reset of `getStats` (lines 149-152). -/
def weeklyReset (s : Stats) (weekStart : String) : Stats :=
  if s.weekStartDate ≠ some weekStart then
    { s with blockedWeek := 0, weekStartDate := some weekStart }
  else s

/-- `getStats()` (lines 135-159): read the stored stats, lazily resetting
the daily and weekly counters when their stored dates no longer match, then
update the streak.  The reset is computed on the read, not written back. -/
def getStats (stored : Stats) (today yesterday weekStart : String) : Stats :=
  updateStreak (weeklyReset (dailyReset stored today) weekStart) today yesterday

/-- The counter bump of `incrementBlocked` (lines 196-199). -/
def stampBlocked (s : Stats) (today : String) : Stats :=
  { s with blockedToday := s.blockedToday + 1,
           blockedWeek := s.blockedWeek + 1,
           blockedTotal := s.blockedTotal + 1,
           lastBlockDate := some today }

/-- `incrementBlocked()` (lines 192-204): read (with lazy resets),
increment the three blocked counters, stamp `lastBlockDate`, update the
streak, and save. -/
def incrementBlocked (stored : Stats) (today yesterday weekStart : String) : Stats :=
  updateStreak (stampBlocked (getStats stored today yesterday weekStart) today)
    today yesterday

/-! ### Tab accounting (lines 344-376) -/

/-- Number of host-reported tabs in a window (`browser.tabs.query({windowId}).length`). -/
def windowCount (tabs : List Tab) (windowId : Nat) : Nat :=
  (tabs.filter (fun t => t.windowId = windowId)).length

/-- `getWindowTabCount(windowId, settings)` (lines 344-354). -/
def getWindowTabCount (tabs : List Tab) (windowId : Nat) (s : Settings) : Nat :=
  let wtabs := tabs.filter (fun t => t.windowId = windowId)
  if s.allowlistEnabled && !s.allowlist.isEmpty then
    (wtabs.filter (fun t => !isUrlAllowed t.url s.allowlist)).length
  else wtabs.length

/-- `getGlobalTabCount(settings)` (lines 357-367). -/
def getGlobalTabCount (tabs : List Tab) (s : Settings) : Nat :=
  if s.allowlistEnabled && !s.allowlist.isEmpty then
    (tabs.filter (fun t => !isUrlAllowed t.url s.allowlist)).length
  else tabs.length

/-- `getCurrentTabCount(windowId, settings)` (lines 370-376). -/
def getCurrentTabCount (tabs : List Tab) (windowId : Nat) (s : Settings) : Nat :=
  if s.globalLimit then getGlobalTabCount tabs s
  else getWindowTabCount tabs windowId s

/-! ### Enforcement policy state (the background script's module globals) -/

/-- A pending-tab record: `{ windowId, timestamp }` (line 40). -/
structure PendingInfo where
  windowId : Nat
  timestamp : Nat
deriving DecidableEq, Repr

/-- The transient module state: `pendingTabs`, `allowlistTabs`,
`corralRestoredTabs` (lines 41-48). -/
structure EnforceState where
  pendingTabs : List (Nat × PendingInfo)
  allowlistTabs : List Nat
  corralRestoredTabs : List Nat
deriving DecidableEq, Repr

/-- `Set.add` on an id list. -/
def insertId (id : Nat) (l : List Nat) : List Nat :=
  if l.contains id then l else id :: l

/-- `Map.set` on the pending map. -/
def pendingSet (m : List (Nat × PendingInfo)) (id : Nat) (info : PendingInfo) :
    List (Nat × PendingInfo) :=
  (id, info) :: m.filter (fun p => p.1 != id)

/-- The environment a handler runs in: the host's current tab list, the
clock, and the calendar strings used by the stats code. -/
structure Env where
  tabs : List Tab
  now : Nat
  today : String
  yesterday : String
  weekStart : String
deriving DecidableEq, Repr

/-- What one enforcement handler invocation did: the new transient state,
the id of the tab it closed via `closeTab` (if any), the stats store after
the call, and whether a pending re-check was scheduled (`setTimeout`). -/
structure EnforceResult where
  state : EnforceState
  closedTab : Option Nat
  stats : Stats
  pendingScheduled : Bool
deriving DecidableEq, Repr

/-- `PENDING_TIMEOUT` (line 61). -/
def PENDING_TIMEOUT : Nat := 300

/-- Drop a tab from the pending map (`pendingTabs.delete(tabId)`). -/
def erasePending (st : EnforceState) (tabId : Nat) : EnforceState :=
  { st with pendingTabs := st.pendingTabs.filter (fun p => p.1 != tabId) }

/-- Drop a tab from the allowlist tracker (`allowlistTabs.delete(tabId)`). -/
def eraseAllowlist (st : EnforceState) (tabId : Nat) : EnforceState :=
  { st with allowlistTabs := st.allowlistTabs.filter (fun i => i != tabId) }

/-- Add a tab to the allowlist tracker (`allowlistTabs.add(tabId)`). -/
def addAllowlist (st : EnforceState) (tabId : Nat) : EnforceState :=
  { st with allowlistTabs := insertId tabId st.allowlistTabs }

/-- `closeTab(tabId)` (lines 405-415): drop the tab from the pending and
allowlist trackers, remove it via the host, and `incrementBlocked`. -/
def closeTabResult (st : EnforceState) (stats : Stats) (tabId : Nat) (env : Env) :
    EnforceResult :=
  { state := eraseAllowlist (erasePending st tabId) tabId,
    closedTab := some tabId,
    stats := incrementBlocked stats env.today env.yesterday env.weekStart,
    pendingScheduled := false }

/-- A handler return that closes nothing and changes nothing but `st`. -/
def noCloseResult (st : EnforceState) (stats : Stats) : EnforceResult :=
  { state := st, closedTab := none, stats := stats, pendingScheduled := false }

/-- Lines 477-482 of `handleTabCreated`: track a real-URL allowlisted tab. -/
def trackIfAllowlisted (s : Settings) (st : EnforceState) (tab : Tab) :
    EnforceState :=
  if s.allowlistEnabled && isRealUrl tab.url
      && isUrlAllowed tab.url s.allowlist then addAllowlist st tab.id
  else st

/-- Register a tab in the pending map and schedule `checkPendingTab`
(lines 520-526). -/
def registerPending (st : EnforceState) (stats : Stats) (tab : Tab) (now : Nat) :
    EnforceResult :=
  { state := { st with
      pendingTabs := pendingSet st.pendingTabs tab.id
        { windowId := tab.windowId, timestamp := now } },
    closedTab := none,
    stats := stats,
    pendingScheduled := true }

/-- `handleTabCreated(tab)` (lines 461-532).  `env.tabs` is the host tab
list at the time of the count query (it already includes the new tab). -/
def handleTabCreated (s : Settings) (env : Env) (st : EnforceState)
    (stats : Stats) (tab : Tab) : EnforceResult :=
  if !s.enabled then noCloseResult st stats
  else if st.corralRestoredTabs.contains tab.id then noCloseResult st stats
  else if getCurrentTabCount env.tabs tab.windowId s ≤ s.maxTabs then
    noCloseResult (trackIfAllowlisted s st tab) stats
  else if s.allowlistEnabled then
    if isRealUrl tab.url then
      if isUrlAllowed tab.url s.allowlist then
        noCloseResult (trackIfAllowlisted s st tab) stats
      else closeTabResult (trackIfAllowlisted s st tab) stats tab.id env
    else registerPending (trackIfAllowlisted s st tab) stats tab env.now
  else closeTabResult (trackIfAllowlisted s st tab) stats tab.id env

/-- `checkPendingTab(tabId)` (lines 419-457).  A tab id absent from
`env.tabs` models a throwing `browser.tabs.get` (tab already gone). -/
def checkPendingTab (s : Settings) (env : Env) (st : EnforceState)
    (stats : Stats) (tabId : Nat) : EnforceResult :=
  match st.pendingTabs.lookup tabId with
  | none => noCloseResult st stats
  | some pending =>
    if env.now - pending.timestamp < PENDING_TIMEOUT then noCloseResult st stats
    else if !s.enabled then noCloseResult (erasePending st tabId) stats
    else if !s.allowlistEnabled then noCloseResult (erasePending st tabId) stats
    else
      match env.tabs.find? (fun t => t.id = tabId) with
      | none => noCloseResult (erasePending st tabId) stats
      | some tab =>
        if isRealUrl tab.url && isUrlAllowed tab.url s.allowlist then
          noCloseResult (addAllowlist (erasePending st tabId) tabId) stats
        else if getCurrentTabCount env.tabs tab.windowId s ≤ s.maxTabs then
          noCloseResult (erasePending st tabId) stats
        else closeTabResult (erasePending st tabId) stats tabId env

/-- The effective url of a `tabs.onUpdated` event (line 539):
`changeInfo.url || tab.url`, with the JS falsy fallback explicit. -/
def effectiveUrl (changeUrl : Option String) (tab : Tab) : String :=
  match changeUrl with
  | some u => if u ≠ "" then u else tab.url
  | none => tab.url

/-- `handleTabUpdated(tabId, changeInfo, tab)` (lines 536-598). -/
def handleTabUpdated (s : Settings) (env : Env) (st : EnforceState)
    (stats : Stats) (tabId : Nat) (changeUrl : Option String) (tab : Tab) :
    EnforceResult :=
  if effectiveUrl changeUrl tab = "" then noCloseResult st stats
  else if !isRealUrl (effectiveUrl changeUrl tab) then noCloseResult st stats
  else if !s.enabled then noCloseResult st stats
  else if !s.allowlistEnabled then noCloseResult st stats
  else if (st.pendingTabs.lookup tabId).isSome then
    if isUrlAllowed (effectiveUrl changeUrl tab) s.allowlist then
      noCloseResult (addAllowlist (erasePending st tabId) tabId) stats
    else if getCurrentTabCount env.tabs tab.windowId s > s.maxTabs then
      closeTabResult (erasePending st tabId) stats tabId env
    else noCloseResult (erasePending st tabId) stats
  else if isUrlAllowed (effectiveUrl changeUrl tab) s.allowlist
      && !st.allowlistTabs.contains tabId then
    noCloseResult (addAllowlist st tabId) stats
  else if !isUrlAllowed (effectiveUrl changeUrl tab) s.allowlist
      && st.allowlistTabs.contains tabId then
    if getCurrentTabCount env.tabs tab.windowId s > s.maxTabs then
      closeTabResult (eraseAllowlist st tabId) stats tabId env
    else noCloseResult (eraseAllowlist st tabId) stats
  else noCloseResult st stats

/-! ### Corral (lines 216-298) -/

/-- A corral entry: `{url, title, favIconUrl, closedAt}` (lines 241-246). -/
structure CorralEntry where
  url : String
  title : String
  favIconUrl : String
  closedAt : Nat
deriving DecidableEq, Repr

/-- The per-tab dedup step of `addToCorral` (lines 224-239): under
`exactURLMatch` remove the first prior entry with the same url; under
`hostnameAndTitleMatch` remove the first prior entry with the same parsed
hostname and (defaulted) title; `withDupes` removes nothing.  A throwing
`new URL(tab.url)` (the `none` case) is the caught no-op. -/
def corralDedup (opt : WrangleOption) (corral : List CorralEntry) (tab : Tab) :
    List CorralEntry :=
  match opt with
  | .exactURLMatch => corral.eraseP (fun e => e.url == tab.url)
  | .hostnameAndTitleMatch =>
    match hostnameOfUrl tab.url with
    | none => corral
    | some tabHostname =>
      corral.eraseP (fun e =>
        match hostnameOfUrl e.url with
        | none => false
        | some h =>
          h == tabHostname
            && e.title == (if tab.title = "" then "Untitled" else tab.title))
  | .withDupes => corral

/-- One loop iteration of `addToCorral`: dedup, then `unshift` the new
entry (with falsy defaults for url/title/favIconUrl). -/
def corralAddOne (opt : WrangleOption) (now : Nat) (corral : List CorralEntry)
    (tab : Tab) : List CorralEntry :=
  { url := tab.url,
    title := if tab.title = "" then "Untitled" else tab.title,
    favIconUrl := tab.favIconUrl,
    closedAt := now } :: corralDedup opt corral tab

/-- `addToCorral(tabs)` (lines 216-255): dedup-and-prepend each closed tab,
then trim to `settings.corralMax || 100`. -/
def addToCorral (s : Settings) (corral : List CorralEntry) (tabs : List Tab)
    (now : Nat) : List CorralEntry :=
  let c := tabs.foldl (corralAddOne s.wrangleOption now) corral
  let maxLen := if s.corralMax = 0 then 100 else s.corralMax
  if c.length > maxLen then c.take maxLen else c

/-- The outcome of `restoreFromCorral` (lines 278-298): the returned flag,
the corral value left in storage, whether storage was written, the url
opened in a new tab (if any), and the updated restored-tab exemption set. -/
structure RestoreResult where
  success : Bool
  corral : List CorralEntry
  storageWritten : Bool
  openedUrl : Option String
  corralRestoredTabs : List Nat
deriving DecidableEq, Repr

/-- `restoreFromCorral(index)` (lines 278-298).  `newTabId` is the id the
host assigns to the re-opened tab; host tab creation is modelled as
succeeding. -/
def restoreFromCorral (corral : List CorralEntry) (restoredSet : List Nat)
    (index : Int) (newTabId : Nat) : RestoreResult :=
  if index < 0 ∨ (corral.length : Int) ≤ index then
    { success := false, corral := corral, storageWritten := false,
      openedUrl := none, corralRestoredTabs := restoredSet }
  else
    let i := index.toNat
    { success := true,
      corral := corral.eraseIdx i,
      storageWritten := true,
      openedUrl := (corral.get? i).map (fun e => e.url),
      corralRestoredTabs := insertId newTabId restoredSet }

/-! ### Inactivity Reaper (`_doInactiveCheck`, lines 796-945) -/

/-- `Map.set` on the activity map (`tabLastAccessed`). -/
def mapSet (m : List (Nat × Nat)) (k v : Nat) : List (Nat × Nat) :=
  (k, v) :: m.filter (fun p => p.1 != k)

/-- A close candidate pushed onto `tabsToClose` (line 867). -/
structure Cand where
  id : Nat
  windowId : Nat
  elapsed : Nat
deriving DecidableEq, Repr

/-- One iteration of the candidate scan (lines 825-869): active, internal
and protected tabs get their timestamp refreshed and are skipped; a tab
with no (or falsy-zero) recorded timestamp gets one; otherwise the tab
becomes a candidate once its idle time reaches the threshold. -/
def scanTab (s : Settings) (now limitMs : Nat) (dbg : Option Nat)
    (st : List (Nat × Nat) × List Cand) (tab : Tab) :
    List (Nat × Nat) × List Cand :=
  let cur := st.1
  let cands := st.2
  if tab.active then
    if dbg ≠ some tab.id then (mapSet cur tab.id now, cands) else (cur, cands)
  else if isInternalUrl tab.url then (mapSet cur tab.id now, cands)
  else if s.protectPinned && tab.pinned then (mapSet cur tab.id now, cands)
  else if s.protectAudible && tab.audible then (mapSet cur tab.id now, cands)
  else if s.protectAllowlist && s.allowlistEnabled && !s.allowlist.isEmpty
      && isUrlAllowed tab.url s.allowlist then (mapSet cur tab.id now, cands)
  else
    match cur.lookup tab.id with
    | none => (mapSet cur tab.id now, cands)
    | some la =>
      if la = 0 then (mapSet cur tab.id now, cands)
      else
        let elapsed := now - la
        if limitMs ≤ elapsed then
          (cur, cands ++ [{ id := tab.id, windowId := tab.windowId,
                            elapsed := elapsed }])
        else (cur, cands)

/-- Insert a candidate into a list sorted by elapsed time descending. -/
def insertCandDesc (c : Cand) : List Cand → List Cand
  | [] => [c]
  | d :: ds =>
    if d.elapsed ≤ c.elapsed then c :: d :: ds else d :: insertCandDesc c ds

/-- Model of `tabsToClose.sort((a, b) => b.elapsed - a.elapsed)` (line 872). -/
def sortCandsDesc : List Cand → List Cand
  | [] => []
  | c :: cs => insertCandDesc c (sortCandsDesc cs)

/-- Clamp future timestamps back to `now` (lines 805-809). -/
def clampFuture (now : Nat) (m : List (Nat × Nat)) : List (Nat × Nat) :=
  m.map (fun p => if now < p.2 then (p.1, now) else p)

/-- The accept loop over `eligibleToClose` (lines 897-912): a candidate in
a window whose remaining-count budget has dropped to the floor gets a fresh
timestamp instead of closing; an accepted candidate is recorded (when the
host still reports its tab) and decrements its window's budget. -/
def closeLoop (minTabs now : Nat) (tabs : List Tab) :
    List Cand → (Nat → Nat) → List (Nat × Nat) → List Cand →
    (Nat → Nat) × List (Nat × Nat) × List Cand
  | [], rem, cur, acc => (rem, cur, acc)
  | c :: cs, rem, cur, acc =>
    if rem c.windowId ≤ minTabs then
      closeLoop minTabs now tabs cs rem (mapSet cur c.id now) acc
    else
      closeLoop minTabs now tabs cs
        (fun w => if w = c.windowId then rem c.windowId - 1 else rem w)
        cur
        (if (tabs.find? (fun t => t.id = c.id)).isSome then acc ++ [c] else acc)

/-- `_doInactiveCheck()` (lines 796-945), as a function from the settings,
the host tab list, the activity map, the clock and the pending activation
debounce id to the new activity map and the list of tabs the pass closed.
`Math.max(0, settings.minTabs)` is the identity on the `Nat` model. -/
def doInactiveCheck (s : Settings) (tabs : List Tab) (last : List (Nat × Nat))
    (now : Nat) (dbg : Option Nat) : List (Nat × Nat) × List Cand :=
  if !s.inactiveEnabled then (last, [])
  else
    let limitMs := s.inactiveMinutes * 60 * 1000
    let last1 := clampFuture now last
    let minTabs := s.minTabs
    let scanned := tabs.foldl (scanTab s now limitMs dbg) (last1, [])
    let sorted := sortCandsDesc scanned.2
    let last3 := tabs.foldl (fun cur t =>
      if windowCount tabs t.windowId ≤ minTabs then mapSet cur t.id now
      else cur) scanned.1
    let eligible := sorted.filter (fun c =>
      decide (minTabs < windowCount tabs c.windowId))
    let looped := closeLoop minTabs now tabs eligible
      (fun w => windowCount tabs w) last3 []
    let closes := looped.2.2
    let last5 := looped.2.1.filter (fun p => !(closes.any (fun c => c.id = p.1)))
    (last5, closes)

/-- Number of tabs a Reaper pass closed in window `w`. -/
def closesInWindow (closes : List Cand) (w : Nat) : Nat :=
  (closes.filter (fun c => c.windowId = w)).length

/-! ### Helper lemmas -/

theorem updateStreak_blockedToday (s : Stats) (t y : String) :
    (updateStreak s t y).blockedToday = s.blockedToday := by
  unfold updateStreak bumpBest advanceStreak
  repeat' split
  all_goals rfl

theorem updateStreak_blockedWeek (s : Stats) (t y : String) :
    (updateStreak s t y).blockedWeek = s.blockedWeek := by
  unfold updateStreak bumpBest advanceStreak
  repeat' split
  all_goals rfl

theorem updateStreak_blockedTotal (s : Stats) (t y : String) :
    (updateStreak s t y).blockedTotal = s.blockedTotal := by
  unfold updateStreak bumpBest advanceStreak
  repeat' split
  all_goals rfl

theorem updateStreak_lastBlockDate (s : Stats) (t y : String) :
    (updateStreak s t y).lastBlockDate = s.lastBlockDate := by
  unfold updateStreak bumpBest advanceStreak
  repeat' split
  all_goals rfl

theorem updateStreak_weekStartDate (s : Stats) (t y : String) :
    (updateStreak s t y).weekStartDate = s.weekStartDate := by
  unfold updateStreak bumpBest advanceStreak
  repeat' split
  all_goals rfl

/-! ### Claim theorems -/

/-- C1: For every tab-creation or navigation-update event, the only tab the
enforcement logic may close is the tab that triggered the event; no
pre-existing, already-counted tab is ever closed by `handleTabCreated`,
`checkPendingTab`, or `handleTabUpdated`. -/
theorem only_triggering_tab_closed (s : Settings) (env : Env)
    (st : EnforceState) (stats : Stats) :
    (∀ tab : Tab, (handleTabCreated s env st stats tab).closedTab = none ∨
      (handleTabCreated s env st stats tab).closedTab = some tab.id)
    ∧ (∀ tabId : Nat, (checkPendingTab s env st stats tabId).closedTab = none ∨
      (checkPendingTab s env st stats tabId).closedTab = some tabId)
    ∧ (∀ (tabId : Nat) (changeUrl : Option String) (tab : Tab),
      (handleTabUpdated s env st stats tabId changeUrl tab).closedTab = none ∨
      (handleTabUpdated s env st stats tabId changeUrl tab).closedTab = some tabId) := by
  refine ⟨fun tab => ?_, fun tabId => ?_, fun tabId changeUrl tab => ?_⟩
  · unfold handleTabCreated
    repeat' split
    all_goals simp [noCloseResult, closeTabResult, registerPending]
  · unfold checkPendingTab
    repeat' split
    all_goals simp [noCloseResult, closeTabResult]
  · unfold handleTabUpdated
    repeat' split
    all_goals simp [noCloseResult, closeTabResult]

/-- C3: with allowlisting disabled (or an empty allowlist), the per-window
count is the raw number of host tabs in that window and the global count is
the raw number of all host tabs, with no exclusions. -/
theorem count_no_allowlist (s : Settings) (tabs : List Tab) (w : Nat)
    (h : s.allowlistEnabled = false ∨ s.allowlist = []) :
    getWindowTabCount tabs w s = windowCount tabs w
    ∧ getGlobalTabCount tabs s = tabs.length := by
  rcases h with h | h <;>
    simp [getWindowTabCount, getGlobalTabCount, windowCount, h]

/-- C8: every `getStats` read returns `blockedToday` as 0 when the stored
`lastBlockDate` is not today and unchanged when it is; it returns
`blockedWeek` as 0 when the stored `weekStartDate` is not this week's start
and unchanged when it is, and the returned `weekStartDate` is this week's
start. -/
theorem getStats_lazy_reset (stored : Stats) (today yesterday weekStart : String) :
    ((getStats stored today yesterday weekStart).blockedToday
      = if stored.lastBlockDate = some today then stored.blockedToday else 0)
    ∧ ((getStats stored today yesterday weekStart).blockedWeek
      = if stored.weekStartDate = some weekStart then stored.blockedWeek else 0)
    ∧ (getStats stored today yesterday weekStart).weekStartDate = some weekStart
    ∧ (getStats stored today yesterday weekStart).blockedTotal
      = stored.blockedTotal := by
  unfold getStats
  by_cases hb : stored.lastBlockDate = some today <;>
    by_cases hw : stored.weekStartDate = some weekStart <;>
      simp [hb, hw, updateStreak_blockedToday, updateStreak_blockedWeek,
        updateStreak_weekStartDate, updateStreak_blockedTotal,
        dailyReset, weeklyReset]

/-- C7: creating a 4th tab in a window already holding 3 tabs under limit 3
with allowlisting disabled closes that 4th tab and increments blockedToday,
blockedWeek and blockedTotal each by exactly 1 over their freshly-read
values, setting lastBlockDate to today. -/
theorem fourth_tab_blocked (s : Settings) (env : Env) (st : EnforceState)
    (stats : Stats) (tab : Tab)
    (hen : s.enabled = true) (hal : s.allowlistEnabled = false)
    (hgl : s.globalLimit = false) (hmax : s.maxTabs = 3)
    (hnc : st.corralRestoredTabs.contains tab.id = false)
    (hcount : windowCount env.tabs tab.windowId = 4) :
    (handleTabCreated s env st stats tab).closedTab = some tab.id
    ∧ (handleTabCreated s env st stats tab).stats.blockedToday
        = (getStats stats env.today env.yesterday env.weekStart).blockedToday + 1
    ∧ (handleTabCreated s env st stats tab).stats.blockedWeek
        = (getStats stats env.today env.yesterday env.weekStart).blockedWeek + 1
    ∧ (handleTabCreated s env st stats tab).stats.blockedTotal
        = (getStats stats env.today env.yesterday env.weekStart).blockedTotal + 1
    ∧ (handleTabCreated s env st stats tab).stats.lastBlockDate
        = some env.today := by
  have hc : getCurrentTabCount env.tabs tab.windowId s = 4 := by
    simp only [getCurrentTabCount, getWindowTabCount, hgl, hal,
      Bool.false_and, if_neg (by simp : ¬(false = true)), if_false]
    simpa [windowCount] using hcount
  have hnc2 : tab.id ∉ st.corralRestoredTabs := by simpa using hnc
  simp [handleTabCreated, hen, hal, hnc2, hmax, hc, closeTabResult,
    incrementBlocked, stampBlocked, updateStreak_blockedToday,
    updateStreak_blockedWeek, updateStreak_blockedTotal,
    updateStreak_lastBlockDate]

/-- C10: `restoreFromCorral` returns false, leaves the corral unwritten and
opens no tab for every negative or past-the-end index; for every in-range
index it removes exactly the entry at that index and returns true. -/
theorem restore_index_handling (corral : List CorralEntry)
    (restoredSet : List Nat) (index : Int) (newTabId : Nat) :
    ((index < 0 ∨ (corral.length : Int) ≤ index) →
      restoreFromCorral corral restoredSet index newTabId
        = { success := false, corral := corral, storageWritten := false,
            openedUrl := none, corralRestoredTabs := restoredSet })
    ∧ (0 ≤ index → index < (corral.length : Int) →
      (restoreFromCorral corral restoredSet index newTabId).success = true
      ∧ (restoreFromCorral corral restoredSet index newTabId).corral
          = corral.take index.toNat ++ corral.drop (index.toNat + 1)
      ∧ (restoreFromCorral corral restoredSet index newTabId).corral.length + 1
          = corral.length) := by
  constructor
  · intro h
    simp [restoreFromCorral, h]
  · intro h1 h2
    have hne : ¬(index < 0 ∨ (corral.length : Int) ≤ index) := by omega
    have hlt : index.toNat < corral.length := by omega
    refine ⟨by simp [restoreFromCorral, hne], ?_, ?_⟩
    · simp [restoreFromCorral, hne, List.eraseIdx_eq_take_drop_succ]
    · simp [restoreFromCorral, hne, List.length_eraseIdx_of_lt hlt]
      omega

theorem filter_length_eraseP {α : Type} (p : α → Bool) (l : List α) :
    ((l.eraseP p).filter p).length + (if l.any p then 1 else 0)
      = (l.filter p).length := by
  induction l with
  | nil => simp
  | cons a l ih =>
    by_cases hpa : p a = true
    · simp [List.eraseP_cons, hpa]
    · simp only [List.eraseP_cons, hpa, Bool.false_eq_true, cond_false,
        List.filter_cons, List.any_cons, Bool.false_or, if_neg hpa]
      simpa [hpa] using ih

/-- C6: under exact-URL-match dedup, adding a closed tab whose URL already
appears (at most once) in the corral leaves exactly one entry for that URL,
prepended with the new closedAt timestamp; and after every add the corral
length is at most the configured maximum. -/
theorem corral_exact_dedup (s : Settings) (corral : List CorralEntry)
    (tab : Tab) (now : Nat)
    (hopt : s.wrangleOption = WrangleOption.exactURLMatch)
    (hone : (corral.filter (fun e => e.url == tab.url)).length ≤ 1)
    (hmax : 1 ≤ s.corralMax) :
    ((addToCorral s corral [tab] now).filter
        (fun e => e.url == tab.url)).length = 1
    ∧ (addToCorral s corral [tab] now).head?
        = some { url := tab.url,
                 title := if tab.title = "" then "Untitled" else tab.title,
                 favIconUrl := tab.favIconUrl, closedAt := now }
    ∧ ∀ (corral2 : List CorralEntry) (tabs2 : List Tab),
        (addToCorral s corral2 tabs2 now).length ≤ s.corralMax := by
  have hmaxne : ¬(s.corralMax = 0) := by omega
  obtain ⟨k, hk⟩ : ∃ k, s.corralMax = k + 1 := ⟨s.corralMax - 1, by omega⟩
  set newE : CorralEntry :=
    { url := tab.url, title := if tab.title = "" then "Untitled" else tab.title,
      favIconUrl := tab.favIconUrl, closedAt := now } with hnew
  set E : List CorralEntry := corral.eraseP (fun e => e.url == tab.url) with hEdef
  have hE : (E.filter (fun e => e.url == tab.url)).length = 0 := by
    rw [hEdef]
    have hfe := filter_length_eraseP (fun e => e.url == tab.url) corral
    by_cases hany : corral.any (fun e => e.url == tab.url) = true
    · rw [if_pos hany] at hfe
      omega
    · have hnone : ∀ a ∈ corral, ¬(a.url == tab.url) = true := by
        simpa using hany
      have h0 : corral.filter (fun e => e.url == tab.url) = [] :=
        List.filter_eq_nil_iff.mpr hnone
      rw [List.eraseP_of_forall_not hnone, h0]
      simp
  have hshape : addToCorral s corral [tab] now
      = if s.corralMax < (newE :: E).length then (newE :: E).take s.corralMax
        else newE :: E := by
    simp [addToCorral, corralAddOne, corralDedup, hopt, hmaxne, hnew, hEdef,
      Nat.lt_iff_add_one_le]
  have hpnew : (newE.url == tab.url) = true := by simp [hnew]
  refine ⟨?_, ?_, ?_⟩
  · rw [hshape]
    split
    · rw [hk, List.take_succ_cons]
      have hsub : ((E.take k).filter (fun e => e.url == tab.url)).length
          ≤ (E.filter (fun e => e.url == tab.url)).length :=
        ((List.take_sublist k E).filter _).length_le
      simp only [List.filter_cons, hpnew, if_pos, List.length_cons]
      omega
    · simp only [List.filter_cons, hpnew, if_pos, List.length_cons]
      omega
  · rw [hshape]
    split
    · rw [hk, List.take_succ_cons]
      rfl
    · rfl
  · intro corral2 tabs2
    simp only [addToCorral, if_neg hmaxne]
    split
    · simp [List.length_take]
    · omega

theorem closesInWindow_append (acc : List Cand) (c : Cand) (w : Nat) :
    closesInWindow (acc ++ [c]) w
      = closesInWindow acc w + (if c.windowId = w then 1 else 0) := by
  simp only [closesInWindow, List.filter_append]
  by_cases h : c.windowId = w <;> simp [h]

theorem closeLoop_closes_bound (minTabs now : Nat) (tabs : List Tab) :
    ∀ (cs : List Cand) (rem : Nat → Nat) (cur : List (Nat × Nat))
      (acc : List Cand) (w : Nat),
      closesInWindow (closeLoop minTabs now tabs cs rem cur acc).2.2 w
          + min (rem w) minTabs
        ≤ closesInWindow acc w + rem w := by
  intro cs
  induction cs with
  | nil =>
    intro rem cur acc w
    simp only [closeLoop]
    omega
  | cons c cs ih =>
    intro rem cur acc w
    rw [closeLoop]
    split
    · exact le_trans (ih rem (mapSet cur c.id now) acc w) (by omega)
    · rename_i hgt
      split
      · have h2 := ih (fun w2 => if w2 = c.windowId then rem c.windowId - 1
          else rem w2) cur (acc ++ [c]) w
        rw [closesInWindow_append] at h2
        by_cases hw : w = c.windowId
        · subst hw
          simp only [eq_self_iff_true, if_true, if_pos rfl] at h2 ⊢
          omega
        · have hw2 : ¬(c.windowId = w) := fun h => hw h.symm
          simp only [if_neg hw, if_neg hw2] at h2 ⊢
          omega
      · have h2 := ih (fun w2 => if w2 = c.windowId then rem c.windowId - 1
          else rem w2) cur acc w
        by_cases hw : w = c.windowId
        · subst hw
          simp only [eq_self_iff_true, if_true, if_pos rfl] at h2 ⊢
          omega
        · simp only [if_neg hw] at h2 ⊢
          omega

/-- C2: for every window and every Reaper pass, the pass closes at most
(window tab count - minTabs) tabs in that window, so the pass never takes a
window from at-or-above the floor to below it. -/
theorem reaper_window_floor (s : Settings) (tabs : List Tab)
    (last : List (Nat × Nat)) (now : Nat) (dbg : Option Nat) (w : Nat) :
    closesInWindow (doInactiveCheck s tabs last now dbg).2 w
      ≤ windowCount tabs w - s.minTabs := by
  rw [doInactiveCheck]
  split
  · simp [closesInWindow]
  · have h := closeLoop_closes_bound s.minTabs now tabs
      ((sortCandsDesc (tabs.foldl (scanTab s now (s.inactiveMinutes * 60 * 1000)
          dbg) (clampFuture now last, [])).2).filter
        (fun c => decide (s.minTabs < windowCount tabs c.windowId)))
      (fun w2 => windowCount tabs w2)
      (tabs.foldl (fun cur t =>
        if windowCount tabs t.windowId ≤ s.minTabs then mapSet cur t.id now
        else cur)
        (tabs.foldl (scanTab s now (s.inactiveMinutes * 60 * 1000) dbg)
          (clampFuture now last, [])).1)
      [] w
    simp only [closesInWindow, List.filter_nil, List.length_nil] at h ⊢
    omega

/-! ### Normalization lemmas about the allowlist matching -/

/-- The characters of the `"www."` pattern. -/
def wwwChars : List Char := ['w', 'w', 'w', '.']

/-- `stripWww` at the character-list level. -/
def strippedL (l : List Char) : List Char :=
  if listBeginsWith l wwwChars then l.drop 4 else l

theorem wwwChars_eq : "www.".data = wwwChars := by decide

theorem stripWww_data (s : String) : (stripWww s).data = strippedL s.data := by
  unfold stripWww strippedL jsBeginsWith
  rw [wwwChars_eq]
  by_cases hb : listBeginsWith s.data wwwChars = true
  · rw [if_pos hb, if_pos hb]
  · rw [if_neg hb, if_neg hb]

theorem listBeginsWith_www_eq (l : List Char)
    (h : listBeginsWith l wwwChars = true) :
    l = 'w' :: 'w' :: 'w' :: '.' :: l.drop 4 := by
  match l with
  | [] => simp [listBeginsWith, wwwChars] at h
  | [a] => simp [listBeginsWith, wwwChars] at h
  | [a, b] => simp [listBeginsWith, wwwChars] at h
  | [a, b, c] => simp [listBeginsWith, wwwChars] at h
  | a :: b :: c :: d :: rest =>
    simp only [wwwChars, listBeginsWith, Bool.and_eq_true,
      decide_eq_true_eq] at h
    obtain ⟨ha, hb, hc, hd, -⟩ := h
    subst ha
    subst hb
    subst hc
    subst hd
    simp

/-- The dot-suffix relation survives `www.`-stripping of both sides: either
the stripped sides coincide or the dot-suffix relation still holds. -/
theorem stripped_dot_suffix {lh le : List Char} (hs : ('.' :: le) <:+ lh) :
    strippedL lh = strippedL le ∨ ('.' :: strippedL le) <:+ strippedL lh := by
  have hen : ('.' :: strippedL le) <:+ ('.' :: le) := by
    unfold strippedL
    split
    · rename_i hb
      rw [listBeginsWith_www_eq le hb]
      simp only [List.drop_succ_cons, List.drop_zero]
      exact ⟨['.', 'w', 'w', 'w'], rfl⟩
    · exact List.suffix_refl _
  have hS : ('.' :: strippedL le) <:+ lh := hen.trans hs
  by_cases hb : listBeginsWith lh wwwChars = true
  · have hlh : strippedL lh = lh.drop 4 := by
      unfold strippedL
      rw [if_pos hb]
    rw [listBeginsWith_www_eq lh hb] at hS
    rw [hlh]
    rcases List.suffix_cons_iff.mp hS with heq | h1
    · simp at heq
    rcases List.suffix_cons_iff.mp h1 with heq | h2
    · simp at heq
    rcases List.suffix_cons_iff.mp h2 with heq | h3
    · simp at heq
    rcases List.suffix_cons_iff.mp h3 with heq | h4
    · injection heq with h5 h6
      exact Or.inl h6.symm
    · exact Or.inr h4
  · have hlh : strippedL lh = lh := by
      unfold strippedL
      rw [if_neg hb]
    rw [hlh]
    exact Or.inr hS

theorem charLower_dot : charLower '.' = '.' := by decide

/-- A raw exact-hostname or dot-suffix match implies the code's normalized
allowlist-entry match. -/
theorem matchesEntry_of_raw (hn e : String)
    (hr : hn = e ∨ jsEndsWith hn ("." ++ e) = true) :
    matchesEntry (stripWww (jsToLower hn)) e = true := by
  rcases hr with rfl | hsuf
  · simp [matchesEntry]
  · have hls : ('.' :: e.data) <:+ hn.data := by
      have := (List.isSuffixOf_iff_suffix).mp hsuf
      simpa [String.data_append, show ".".data = ['.'] from by decide] using this
    have hmap : ('.' :: (jsToLower e).data) <:+ (jsToLower hn).data := by
      have h2 := hls.map charLower
      simpa [jsToLower, charLower_dot] using h2
    rcases stripped_dot_suffix hmap with heq | hsuf2
    · have hstr : stripWww (jsToLower hn) = stripWww (jsToLower e) :=
        String.ext (by rw [stripWww_data, stripWww_data]; exact heq)
      simp [matchesEntry, hstr]
    · have hend : jsEndsWith (stripWww (jsToLower hn))
          ("." ++ stripWww (jsToLower e)) = true := by
        rw [jsEndsWith, List.isSuffixOf_iff_suffix, String.data_append,
          stripWww_data, stripWww_data]
        simpa [show ".".data = ['.'] from by decide] using hsuf2
      simp [matchesEntry, hend]

theorem hostnameOfUrl_empty : hostnameOfUrl "" = none := by decide

/-- A raw hostname match against some allowlist entry makes the whole URL
allowlisted. -/
theorem isUrlAllowed_of_raw_match (url hn e : String) (allowlist : List String)
    (hmem : e ∈ allowlist)
    (hh : hostnameOfUrl url = some hn)
    (hr : hn = e ∨ jsEndsWith hn ("." ++ e) = true) :
    isUrlAllowed url allowlist = true := by
  have hne : ¬(url = "") := by
    rintro rfl
    rw [hostnameOfUrl_empty] at hh
    cases hh
  have hnel : allowlist.isEmpty = false := by
    cases allowlist with
    | nil => cases hmem
    | cons a l => rfl
  unfold isUrlAllowed
  rw [if_neg (by simp [hne, hnel]), hh]
  exact List.any_eq_true.mpr ⟨e, hmem, matchesEntry_of_raw hn e hr⟩

/-- C4: while allowlisting is enabled, a tab whose URL hostname equals an
allowlist entry or ends with "." followed by that entry is excluded from
the window tab count; with allowlisting toggled off the same tab is
counted. -/
theorem allowlist_excludes_tab (s : Settings) (tabs : List Tab) (t : Tab)
    (e hn : String)
    (hen : s.allowlistEnabled = true)
    (hmem : e ∈ s.allowlist)
    (hh : hostnameOfUrl t.url = some hn)
    (hr : hn = e ∨ jsEndsWith hn ("." ++ e) = true) :
    getWindowTabCount (t :: tabs) t.windowId s
      = getWindowTabCount tabs t.windowId s
    ∧ getWindowTabCount (t :: tabs) t.windowId
        { s with allowlistEnabled := false }
      = getWindowTabCount tabs t.windowId
        { s with allowlistEnabled := false } + 1 := by
  have hal : isUrlAllowed t.url s.allowlist = true :=
    isUrlAllowed_of_raw_match t.url hn e s.allowlist hmem hh hr
  have hnel : s.allowlist.isEmpty = false := by
    cases hl : s.allowlist with
    | nil => rw [hl] at hmem; cases hmem
    | cons a l => rfl
  constructor
  · simp [getWindowTabCount, hen, hnel, List.filter_cons, hal]
  · simp [getWindowTabCount, List.filter_cons]

/-- C9: allowlist matching is normalized: with a parsed hostname, a URL is
allowlisted exactly when some entry matches after lowercasing and
`www.`-stripping both sides (so `www.Example.com` matches entry
`example.com` and vice versa); an unparseable URL or an empty allowlist
yields false rather than failing. -/
theorem isUrlAllowed_normalization :
    (∀ (url : String) (allowlist : List String), hostnameOfUrl url = none →
      isUrlAllowed url allowlist = false)
    ∧ (∀ url : String, isUrlAllowed url [] = false)
    ∧ (∀ (url : String) (allowlist : List String) (hn : String),
      hostnameOfUrl url = some hn →
      (isUrlAllowed url allowlist = true ↔
        ∃ e ∈ allowlist,
          stripWww (jsToLower hn) = stripWww (jsToLower e)
          ∨ jsEndsWith (stripWww (jsToLower hn))
              ("." ++ stripWww (jsToLower e)) = true))
    ∧ isUrlAllowed "https://www.Example.com/" ["example.com"] = true
    ∧ isUrlAllowed "https://example.com/page" ["www.Example.com"] = true := by
  refine ⟨?_, ?_, ?_, by decide, by decide⟩
  · intro url allowlist hnone
    simp [isUrlAllowed, hnone]
  · intro url
    simp [isUrlAllowed]
  · intro url allowlist hn hh
    have hne : ¬(url = "") := by
      rintro rfl
      rw [hostnameOfUrl_empty] at hh
      cases hh
    cases hl : allowlist with
    | nil => simp [isUrlAllowed]
    | cons a l =>
      unfold isUrlAllowed
      rw [if_neg (by simp [hne]), hh]
      simp [List.any_eq_true, matchesEntry]

/-! ### Concrete fixtures -/

/-- `DEFAULT_SETTINGS` (lines 8-25), as a value. -/
def defaultSettings : Settings :=
  { enabled := true, maxTabs := 3, globalLimit := false,
    allowlistEnabled := false, allowlist := [], tabLimitLocked := false,
    inactiveEnabled := false, inactiveMinutes := 30, protectPinned := true,
    protectAudible := true, protectAllowlist := true, minTabs := 5,
    corralMax := 100, corralExpireHours := 24, debounceDelay := 1,
    wrangleOption := .exactURLMatch }

/-- `DEFAULT_STATS` (lines 28-38), as a value. -/
def defaultStats : Stats :=
  { currentStreak := 0, bestStreak := 0, blockedToday := 0, blockedWeek := 0,
    blockedTotal := 0, inactiveClosed := 0, lastActiveDate := none,
    lastBlockDate := none, weekStartDate := none }

/-- The empty transient module state at service-worker startup. -/
def emptyState : EnforceState :=
  { pendingTabs := [], allowlistTabs := [], corralRestoredTabs := [] }

/-- Fixture: limit 1, allowlisting disabled. -/
def cexSettings : Settings := { defaultSettings with maxTabs := 1 }

/-- Fixture: a pre-existing real-URL tab. -/
def cexOld : Tab := { id := 1, windowId := 1, url := "https://a.com/" }

/-- Fixture: a newly created tab whose URL is not yet known. -/
def cexNew : Tab := { id := 2, windowId := 1, url := "" }

/-- Fixture environment holding both tabs. -/
def cexEnv : Env :=
  { tabs := [cexOld, cexNew], now := 1000, today := "Tue Jan 02 2024",
    yesterday := "Mon Jan 01 2024", weekStart := "Sun Dec 31 2023" }

/-- C5 counterexample: with allowlisting disabled, a newly created tab that
is over the limit and whose URL is not yet known is closed immediately by
`handleTabCreated`; it is not registered as pending and no re-check is
scheduled. -/
theorem pending_claim_counterexample :
    isRealUrl cexNew.url = false
    ∧ cexSettings.maxTabs
        < getCurrentTabCount cexEnv.tabs cexNew.windowId cexSettings
    ∧ (handleTabCreated cexSettings cexEnv emptyState defaultStats
        cexNew).closedTab = some cexNew.id
    ∧ (handleTabCreated cexSettings cexEnv emptyState defaultStats
        cexNew).state.pendingTabs = []
    ∧ (handleTabCreated cexSettings cexEnv emptyState defaultStats
        cexNew).pendingScheduled = false := by
  decide

/-- C5 amended: while allowlisting is enabled, a newly created over-limit
tab with an unknown URL is registered as pending (with its window and
creation time) instead of being closed, a re-check is scheduled, and
`checkPendingTab` re-evaluates it once the fixed timeout has elapsed with
the same allowlist/limit logic: keep it if its URL is now allowlisted or
the count is back within the limit, close exactly this tab otherwise. -/
theorem pending_tab_amended (s : Settings) (env : Env) (st : EnforceState)
    (stats : Stats) (tab : Tab)
    (hen : s.enabled = true) (hal : s.allowlistEnabled = true)
    (hnc : st.corralRestoredTabs.contains tab.id = false)
    (hurl : isRealUrl tab.url = false)
    (hover : s.maxTabs < getCurrentTabCount env.tabs tab.windowId s) :
    (handleTabCreated s env st stats tab).closedTab = none
    ∧ (handleTabCreated s env st stats tab).pendingScheduled = true
    ∧ (handleTabCreated s env st stats tab).state.pendingTabs.lookup tab.id
        = some { windowId := tab.windowId, timestamp := env.now }
    ∧ ∀ (env2 : Env) (tab2 : Tab),
        env.now + PENDING_TIMEOUT ≤ env2.now →
        env2.tabs.find? (fun t2 => t2.id = tab.id) = some tab2 →
        (checkPendingTab s env2 (handleTabCreated s env st stats tab).state
            stats tab.id).closedTab
          = (if isRealUrl tab2.url && isUrlAllowed tab2.url s.allowlist then
              none
            else if getCurrentTabCount env2.tabs tab2.windowId s ≤ s.maxTabs
            then none
            else some tab.id) := by
  have hnc2 : tab.id ∉ st.corralRestoredTabs := by simpa using hnc
  have htrack : trackIfAllowlisted s st tab = st := by
    unfold trackIfAllowlisted
    rw [if_neg (by simp [hurl])]
  have hr : handleTabCreated s env st stats tab
      = registerPending st stats tab env.now := by
    unfold handleTabCreated
    rw [if_neg (by simp [hen]), if_neg (by simpa using hnc2),
      if_neg (by omega), if_pos hal, if_neg (by simp [hurl]), htrack]
  have hlk : (pendingSet st.pendingTabs tab.id
      { windowId := tab.windowId, timestamp := env.now }).lookup tab.id
      = some { windowId := tab.windowId, timestamp := env.now } := by
    simp [pendingSet, List.lookup]
  refine ⟨by rw [hr]; rfl, by rw [hr]; rfl, ?_, ?_⟩
  · rw [hr]
    simpa [registerPending] using hlk
  · intro env2 tab2 htime hfind
    rw [hr]
    have hnlt : ¬(env2.now - env.now < PENDING_TIMEOUT) := by omega
    by_cases hallow : (isRealUrl tab2.url && isUrlAllowed tab2.url s.allowlist)
        = true
    · simp [checkPendingTab, registerPending, hlk, hnlt, hen, hal, hfind,
        hallow, noCloseResult]
    · by_cases hcount : getCurrentTabCount env2.tabs tab2.windowId s
          ≤ s.maxTabs
      · simp [checkPendingTab, registerPending, hlk, hnlt, hen, hal, hfind,
          hallow, hcount, noCloseResult]
      · simp [checkPendingTab, registerPending, hlk, hnlt, hen, hal, hfind,
          hallow, hcount, noCloseResult, closeTabResult]

/-! ### Witness instantiations at concrete inputs -/

/-- Fixture: allowlisting enabled with one entry. -/
def wlSettings : Settings :=
  { defaultSettings with
      allowlistEnabled := true
      allowlist := ["example.com"] }

/-- Fixture: a tab on an allowlisted subdomain. -/
def wlTab : Tab := { id := 3, windowId := 1, url := "https://news.example.com/x" }

/-- Fixture: a corral entry for `https://a.com`. -/
def corralEntryA : CorralEntry :=
  { url := "https://a.com", title := "A", favIconUrl := "", closedAt := 5 }

/-- Fixture: the same page closed again later. -/
def corralTabA : Tab :=
  { id := 9, windowId := 1, url := "https://a.com", title := "A again" }

/-- Fixture: limit 1 with allowlisting enabled. -/
def pendSettings : Settings :=
  { defaultSettings with
      maxTabs := 1
      allowlistEnabled := true
      allowlist := ["example.com"] }

/-- Fixture: the pending tab after it resolved to a non-allowlisted URL. -/
def pendTab2 : Tab := { id := 2, windowId := 1, url := "https://b.com/" }

/-- Fixture: the environment after the pending timeout. -/
def pendEnv2 : Env :=
  { tabs := [cexOld, pendTab2], now := 1400, today := "Tue Jan 02 2024",
    yesterday := "Mon Jan 01 2024", weekStart := "Sun Dec 31 2023" }

/-- Fixture tabs for the limit-3 scenario. -/
def w7t4 : Tab := { id := 4, windowId := 1, url := "https://d.com/" }

/-- Fixture: one window holding 3 real-URL tabs plus the new 4th. -/
def w7Env : Env :=
  { tabs := [{ id := 1, windowId := 1, url := "https://a.com/" },
             { id := 2, windowId := 1, url := "https://b.com/" },
             { id := 3, windowId := 1, url := "https://c.com/" },
             w7t4],
    now := 1000, today := "Tue Jan 02 2024",
    yesterday := "Mon Jan 01 2024", weekStart := "Sun Dec 31 2023" }

theorem count_no_allowlist_witness :
    getWindowTabCount [cexOld, cexNew] 1 defaultSettings
        = windowCount [cexOld, cexNew] 1
    ∧ getGlobalTabCount [cexOld, cexNew] defaultSettings
        = [cexOld, cexNew].length :=
  count_no_allowlist defaultSettings [cexOld, cexNew] 1 (Or.inl (by decide))

theorem allowlist_excludes_tab_witness :
    getWindowTabCount [wlTab, cexOld] wlTab.windowId wlSettings
      = getWindowTabCount [cexOld] wlTab.windowId wlSettings
    ∧ getWindowTabCount [wlTab, cexOld] wlTab.windowId
        { wlSettings with allowlistEnabled := false }
      = getWindowTabCount [cexOld] wlTab.windowId
        { wlSettings with allowlistEnabled := false } + 1 :=
  allowlist_excludes_tab wlSettings [cexOld] wlTab "example.com"
    "news.example.com" (by decide) (by decide) (by decide) (Or.inr (by decide))

theorem pending_tab_amended_witness :
    (checkPendingTab pendSettings pendEnv2
        (handleTabCreated pendSettings cexEnv emptyState defaultStats
          cexNew).state defaultStats cexNew.id).closedTab = some cexNew.id := by
  have h := pending_tab_amended pendSettings cexEnv emptyState defaultStats
    cexNew (by decide) (by decide) (by decide) (by decide) (by decide)
  have h4 := h.2.2.2 pendEnv2 pendTab2 (by decide) (by decide)
  rw [h4]
  decide

theorem corral_exact_dedup_witness :
    ((addToCorral defaultSettings [corralEntryA] [corralTabA] 99).filter
        (fun e => e.url == corralTabA.url)).length = 1
    ∧ (addToCorral defaultSettings [corralEntryA] [corralTabA] 99).head?
        = some { url := corralTabA.url,
                 title := if corralTabA.title = "" then "Untitled"
                   else corralTabA.title,
                 favIconUrl := corralTabA.favIconUrl, closedAt := 99 } := by
  have h := corral_exact_dedup defaultSettings [corralEntryA] corralTabA 99
    (by decide) (by decide) (by decide)
  exact ⟨h.1, h.2.1⟩

theorem fourth_tab_blocked_witness :
    (handleTabCreated defaultSettings w7Env emptyState defaultStats
        w7t4).closedTab = some w7t4.id
    ∧ (handleTabCreated defaultSettings w7Env emptyState defaultStats
        w7t4).stats.blockedToday
      = (getStats defaultStats w7Env.today w7Env.yesterday
          w7Env.weekStart).blockedToday + 1
    ∧ (handleTabCreated defaultSettings w7Env emptyState defaultStats
        w7t4).stats.blockedWeek
      = (getStats defaultStats w7Env.today w7Env.yesterday
          w7Env.weekStart).blockedWeek + 1
    ∧ (handleTabCreated defaultSettings w7Env emptyState defaultStats
        w7t4).stats.blockedTotal
      = (getStats defaultStats w7Env.today w7Env.yesterday
          w7Env.weekStart).blockedTotal + 1
    ∧ (handleTabCreated defaultSettings w7Env emptyState defaultStats
        w7t4).stats.lastBlockDate = some w7Env.today :=
  fourth_tab_blocked defaultSettings w7Env emptyState defaultStats w7t4
    (by decide) (by decide) (by decide) (by decide) (by decide) (by decide)

theorem isUrlAllowed_normalization_witness :
    isUrlAllowed "nohost" ["example.com"] = false :=
  isUrlAllowed_normalization.1 "nohost" ["example.com"] (by decide)

theorem restore_index_handling_witness :
    (restoreFromCorral [corralEntryA] [] 0 42).success = true
    ∧ (restoreFromCorral [corralEntryA] [] 0 42).corral
        = [corralEntryA].take 0 ++ [corralEntryA].drop 1
    ∧ (restoreFromCorral [corralEntryA] [] 0 42).corral.length + 1
        = [corralEntryA].length
    ∧ restoreFromCorral [corralEntryA] [] 5 42
        = { success := false, corral := [corralEntryA],
            storageWritten := false, openedUrl := none,
            corralRestoredTabs := [] } := by
  have h := restore_index_handling [corralEntryA] [] 0 42
  have h2 := restore_index_handling [corralEntryA] [] 5 42
  exact ⟨(h.2 (by decide) (by decide)).1, (h.2 (by decide) (by decide)).2.1,
    (h.2 (by decide) (by decide)).2.2, h2.1 (by decide)⟩

end TabCap
